import Mathlib

/-!
Verification development for the `fms_fsdp` training utilities
(`fms_fsdp/utils/train_utils.py` together with the configuration record in
`fms_fsdp/config/training.py`).

The Python code is shallowly embedded: float scalars become `ℚ`, the 3-slot
`ddp_stats` tensor becomes a 3-field structure, the process environment is an
`Option`-valued record, Python runtime errors (`KeyError`,
`UnboundLocalError`, `ImportError`) become an explicit error type, and
`time.time()` values are supplied as inputs.  Side effects performed through
collaborators (the rank-0 report prints / wandb log, `checkpointer.save`)
are recorded as events in an explicit trace.
-/

namespace FmsFsdp

/-- The 3-slot accumulator `ddp_stats = torch.zeros(3)`:
slot 0 is the summed loss, slot 1 the summed gradient norm,
slot 2 the step count (train_utils.py line 57). -/
structure Stats where
  lossSum : ℚ
  gnormSum : ℚ
  count : ℚ
deriving DecidableEq, Repr

/-- `torch.zeros(3)`. -/
def Stats.zero : Stats := ⟨0, 0, 0⟩

/-- Slot-wise sum, the element-wise effect of `dist.all_reduce(ddp_stats,
op=dist.ReduceOp.SUM)` on the 3-slot tensor (line 84). -/
def Stats.add (a b : Stats) : Stats :=
  ⟨a.lossSum + b.lossSum, a.gnormSum + b.gnormSum, a.count + b.count⟩

/-- The per-step accumulation performed on a worker's local `ddp_stats`:
`ddp_stats[1] += grad_norm` (line 73), `ddp_stats[0] += loss` (line 77),
`ddp_stats[2] += 1` (line 78).  A sample is a `(loss, grad_norm)` pair. -/
def accumulate (s : Stats) (sample : ℚ × ℚ) : Stats :=
  ⟨s.lossSum + sample.1, s.gnormSum + sample.2, s.count + 1⟩

/-- The local `ddp_stats` a worker has accumulated over one report interval,
starting from the zeroed tensor, given its sequence of per-step samples. -/
def workerStats (samples : List (ℚ × ℚ)) : Stats :=
  samples.foldl accumulate Stats.zero

/-- The result of the sum all-reduce across a list of workers. -/
def allReduceSum (ws : List Stats) : Stats :=
  ws.foldl Stats.add Stats.zero

/-- `train_loss = ddp_stats[0] / ddp_stats[2]` (line 85). -/
def avgLoss (s : Stats) : ℚ := s.lossSum / s.count

/-- `g_norm = ddp_stats[1] / ddp_stats[2]` (line 86). -/
def avgGnorm (s : Stats) : ℚ := s.gnormSum / s.count


/-! ### Policy selection (`get_policies`, train_utils.py lines 157-197) -/

/-- `torch.distributed.fsdp.ShardingStrategy` values used by the code. -/
inductive ShardingStrategy where
  | FULL_SHARD
  | HYBRID_SHARD
  | NO_SHARD
deriving DecidableEq, Repr

/-- The two mixed-precision policies the code can pick
(`bfSixteen` / `fpSixteen` from `fms_fsdp.policies`). -/
inductive MixedPrecision where
  | bfSixteen
  | fpSixteen
deriving DecidableEq, Repr

/-- The `if/elif/else` chain on `cfg.sharding_strategy`
(train_utils.py lines 186-193): "fsdp" → FULL_SHARD, "hsdp" → HYBRID_SHARD,
"ddp" → NO_SHARD, anything else → FULL_SHARD. -/
def shardingStrategyOf (s : String) : ShardingStrategy :=
  if s = "fsdp" then ShardingStrategy.FULL_SHARD
  else if s = "hsdp" then ShardingStrategy.HYBRID_SHARD
  else if s = "ddp" then ShardingStrategy.NO_SHARD
  else ShardingStrategy.FULL_SHARD

/-- The hardware capability probes of lines 160-166, each of which may raise
an exception (of type `ε`) when evaluated.  The slots are, in evaluation
order of the Python `and` chain: truthiness of `torch.version.cuda`,
`torch.cuda.is_bf16_supported()`,
`packaging.version.parse(torch.version.cuda).release >= (11, 0)`,
`dist.is_nccl_available()`, and `nccl.version() >= (2, 10)`. -/
structure Hardware (ε : Type) where
  cudaVersionTruthy : Except ε Bool
  isBf16Supported : Except ε Bool
  cudaReleaseGE11 : Except ε Bool
  ncclAvailable : Except ε Bool
  ncclVersionGE210 : Except ε Bool

/-- `verify_bfloat_support = torch.version.cuda and ... and nccl.version() >=
(2, 10)` (lines 160-166): a short-circuiting `and` chain over the probes.
An exception raised by any evaluated probe propagates (there is no
`try/except` in `get_policies`). -/
def verify_bfloat_support {ε : Type} (hw : Hardware ε) : Except ε Bool := do
  let a ← hw.cudaVersionTruthy
  if !a then return false
  let b ← hw.isBf16Supported
  if !b then return false
  let c ← hw.cudaReleaseGE11
  if !c then return false
  let d ← hw.ncclAvailable
  if !d then return false
  hw.ncclVersionGE210

/-- The configuration slots of `train_config` (fms_fsdp/config/training.py)
that the embedded code reads. -/
structure train_config where
  seq_length : Nat
  mixed_precision : Bool
  sharding_strategy : String
  batch_size : Nat
  num_steps : Nat
  use_wandb : Bool
  report_interval : Nat
  checkpoint_interval : Nat
deriving DecidableEq, Repr

/-- `get_policies` (train_utils.py lines 157-197), minus the rank-0 prints
and the wrapping policy (an opaque external collaborator,
`get_llama_wrapper()`).  `verify_bfloat_support` is evaluated
unconditionally (line 160) before the `cfg.mixed_precision` branch; the
mixed-precision policy is `None` when `cfg.mixed_precision` is false,
`bfSixteen` when bf16 support is verified, `fpSixteen` otherwise. -/
def get_policies {ε : Type} (cfg : train_config) (hw : Hardware ε) :
    Except ε (Option MixedPrecision × ShardingStrategy) := do
  let v ← verify_bfloat_support hw
  let mixed_precision_policy :=
    if cfg.mixed_precision then
      if v then some MixedPrecision.bfSixteen else some MixedPrecision.fpSixteen
    else none
  let sharding_strategy := shardingStrategyOf cfg.sharding_strategy
  return (mixed_precision_policy, sharding_strategy)

/-! ### The training loop (`train`, train_utils.py lines 19-145) -/

/-- Python `int(q)` on a real value: truncation toward zero. -/
def pyInt (q : ℚ) : ℤ := if 0 ≤ q then ⌊q⌋ else ⌈q⌉

/-- Python runtime errors the embedded `train` can raise:
the `ImportError` of lines 32-38, the `KeyError` from
`os.environ["WORLD_SIZE"]` (line 88), and the `UnboundLocalError`s from
`new_tokens_seen` (line 142) and `train_loss` (line 145). -/
inductive TrainError where
  | importErrorWandb
  | keyErrorWorldSize
  | unboundNewTokensSeen
  | unboundTrainLoss
deriving DecidableEq, Repr

/-- Observable side effects of `train`.  `report` stands for the rank-0
print/log block (lines 105-131) with the values it emits: step index,
average loss, average gradient norm, cumulative tokens seen, overall
throughput (line 97) and tokens per day (line 118).  `save` stands for
`checkpointer.save(batch_idx, model, optimizer, train_loader,
tokens_seen=...)` (lines 137-143); the model, optimizer and data-loader
handles are the opaque collaborator arguments of `train` and are always
passed, so the event records the two data values: the step index and the
`tokens_seen` keyword. -/
inductive Event where
  | report (step : Nat) (avgL avgG : ℚ) (totalTokens : Nat)
      (throughput tokensPerDay : ℤ)
  | save (step : Nat) (tokensSeen : Nat)
deriving DecidableEq, Repr

/-- The process environment: `os.environ["WORLD_SIZE"]` (present and
numeric, or absent), and whether the `wandb` module is importable. -/
structure Environ where
  WORLD_SIZE : Option Nat
  wandbInstalled : Bool
deriving DecidableEq, Repr

/-- One iteration's external inputs: the scalar cross-entropy loss
`loss.item()` the forward pass produces for this batch, the pre-clip
gradient norm `model.clip_grad_norm_(...).item()`, and the wall-clock value
`time.time()` reads during this iteration's report block. -/
structure StepInput where
  loss : ℚ
  gnorm : ℚ
  now : ℚ
deriving DecidableEq, Repr

/-- The loop-carried state of `train`: the local `ddp_stats` accumulator
and the Python locals `train_loss` and `new_tokens_seen` (`none` while
still unassigned), plus the trace of emitted events. -/
structure LoopState where
  ddp_stats : Stats
  train_loss : Option ℚ
  new_tokens_seen : Option Nat
  events : List Event
deriving DecidableEq, Repr

/-- The state at function entry: `ddp_stats = torch.zeros(3)` (line 57),
`train_loss` and `new_tokens_seen` unassigned, no events yet. -/
def LoopState.init : LoopState := ⟨Stats.zero, none, none, []⟩

/-- The body of the `for` loop (lines 64-143) for one executed step
`batch_idx`, after the break check.  The forward/backward pass, optimizer,
scheduler and profiler are opaque collaborators; their observable
contribution is the step's `StepInput`.  `others batch_idx` is the sum of
the other workers' `ddp_stats` entering the all-reduce at this step, so
that `dist.all_reduce(SUM)` leaves `ddp_stats + others batch_idx` in the
local tensor.  Errors carry the events emitted before the raise. -/
def stepBody (cfg : train_config) (env : Environ) (others : Nat → Stats)
    (rank start_step tokens_seen : Nat) (loop_start : ℚ)
    (batch_idx : Nat) (b : StepInput) (s : LoopState) :
    Except (TrainError × List Event) LoopState := do
  let stats1 := accumulate s.ddp_stats (b.loss, b.gnorm)
  let s1 ←
    if batch_idx % cfg.report_interval = 0 then
      match env.WORLD_SIZE with
      | none => throw (TrainError.keyErrorWorldSize, s.events)
      | some world_size =>
        let reduced := Stats.add stats1 (others batch_idx)
        let train_loss := avgLoss reduced
        let g_norm := avgGnorm reduced
        let elapsed_time := b.now - loop_start
        let new_tokens_seen :=
          (batch_idx - start_step) * world_size * cfg.batch_size * cfg.seq_length
        let events :=
          if rank = 0 then
            s.events ++ [Event.report batch_idx train_loss g_norm
              (tokens_seen + new_tokens_seen)
              (pyInt ((new_tokens_seen : ℚ) / (world_size : ℚ) / elapsed_time))
              (pyInt ((new_tokens_seen : ℚ) / elapsed_time * (3600 * 24)))]
          else s.events
        pure (LoopState.mk Stats.zero (some train_loss) (some new_tokens_seen)
          events)
    else
      pure { s with ddp_stats := stats1 }
  if batch_idx % cfg.checkpoint_interval = 0 then
    match s1.new_tokens_seen with
    | none => throw (TrainError.unboundNewTokensSeen, s1.events)
    | some v =>
        pure { s1 with events := s1.events ++ [Event.save batch_idx (tokens_seen + v)] }
  else
    pure s1

/-- The `for batch_idx, (input, label) in enumerate(train_loader,
start=start_step + 1)` loop (line 61): consume the loader's inputs,
breaking as soon as `batch_idx > cfg.num_steps` (lines 62-63); the loop
also ends if the loader is exhausted. -/
def runFrom (cfg : train_config) (env : Environ) (others : Nat → Stats)
    (rank start_step tokens_seen : Nat) (loop_start : ℚ) :
    Nat → List StepInput → LoopState → Except (TrainError × List Event) LoopState
  | _, [], s => pure s
  | batch_idx, b :: bs, s =>
    if batch_idx > cfg.num_steps then pure s
    else do
      let s' ← stepBody cfg env others rank start_step tokens_seen loop_start
        batch_idx b s
      runFrom cfg env others rank start_step tokens_seen loop_start
        (batch_idx + 1) bs s'

/-- `train` (lines 19-145).  First the wandb availability check
(lines 32-38: `use_wandb` with `wandb` not importable raises
`ImportError` before any step).  Then the loop from `start_step + 1`, and
finally `return train_loss` (line 145), an `UnboundLocalError` when
`train_loss` was never assigned.  On success it yields the returned loss
together with the event trace. -/
def train (cfg : train_config) (env : Environ) (others : Nat → Stats)
    (rank : Nat) (train_loader : List StepInput)
    (start_step tokens_seen : Nat) (loop_start : ℚ) :
    Except (TrainError × List Event) (ℚ × List Event) := do
  if cfg.use_wandb && !env.wandbInstalled then
    throw (TrainError.importErrorWandb, [])
  else
    let final ← runFrom cfg env others rank start_step tokens_seen loop_start
      (start_step + 1) train_loader LoopState.init
    match final.train_loss with
    | none => throw (TrainError.unboundTrainLoss, final.events)
    | some v => pure (v, final.events)

/-! ### Event classifiers and concrete inputs used by the theorems below -/

/-- Whether an event is a rank-0 report. -/
def Event.isReport : Event → Bool
  | Event.report _ _ _ _ _ _ => true
  | Event.save _ _ => false

/-- Whether an event is a `checkpointer.save` call. -/
def Event.isSave : Event → Bool
  | Event.report _ _ _ _ _ _ => false
  | Event.save _ _ => true

/-- A single-worker process group: the all-reduce adds nothing. -/
def noOthers : Nat → Stats := fun _ => Stats.zero

/-- An environment with `WORLD_SIZE=1` and `wandb` importable. -/
def env1 : Environ := ⟨some 1, true⟩

/-- An environment with `WORLD_SIZE` absent. -/
def envNoWorld : Environ := ⟨none, true⟩

/-- The spec §8 end-to-end scenario configuration: `num_steps = 3`,
`report_interval = 2`, `checkpoint_interval = 2` (with `seq_length = 7`,
`batch_size = 2`, wandb off). -/
def cfgScenario : train_config := ⟨7, true, "hsdp", 2, 3, false, 2, 2⟩

/-- The spec §8 scenario loader: per-step losses 1, 2, 3 and grad-norms
0.1, 0.2, 0.3 (a fourth batch is available so that the `batch_idx >
num_steps` break, not loader exhaustion, ends the loop). -/
def loaderScenario : List StepInput :=
  [⟨1, 1/10, 1⟩, ⟨2, 2/10, 2⟩, ⟨3, 3/10, 3⟩, ⟨4, 4/10, 4⟩]

/-- A configuration whose first checkpoint boundary (step 2,
`checkpoint_interval = 2`) precedes the first report boundary
(`report_interval = 3`). -/
def cfgCkptFirst : train_config := ⟨1, true, "fsdp", 1, 4, false, 3, 2⟩

/-- Four unit batches with unit losses and grad-norms. -/
def loaderUnit : List StepInput := [⟨1, 1, 1⟩, ⟨1, 1, 2⟩, ⟨1, 1, 3⟩, ⟨1, 1, 4⟩]

/-- A two-step configuration reporting at every step (`report_interval = 1`,
`seq_length = 100`, `batch_size = 1`, no checkpoint boundary in range). -/
def cfgEveryStep : train_config := ⟨100, true, "fsdp", 1, 2, false, 1, 5⟩

/-- Two batches whose report blocks run at wall-clock times 1 and 3
(with the loop started at time 0): the two report intervals have unequal
durations 1 and 2. -/
def loaderTimes : List StepInput := [⟨1, 1, 1⟩, ⟨1, 1, 3⟩]

/-- Hardware whose bf16 capability probe raises (the exception is `()`)
while the first probe succeeds, so the raising probe is reached. -/
def hwRaising : Hardware Unit :=
  ⟨Except.ok true, Except.error (), Except.ok true, Except.ok true, Except.ok true⟩

/-- Hardware whose probes all complete and report bf16 unsupported. -/
def hwNoBf16 : Hardware Unit :=
  ⟨Except.ok true, Except.ok false, Except.ok true, Except.ok true, Except.ok true⟩

/-- Two workers with samples `[(1, 2), (2, 3)]` and `[(3, 4)]` in one
report interval. -/
def workersExample : List (List (ℚ × ℚ)) := [[(1, 2), (2, 3)], [(3, 4)]]

/-- A sample step input: loss 2, grad-norm 3, report-block wall time 10. -/
def stepSample : StepInput := ⟨2, 3, 10⟩

/-- A mid-run state in which `train_loss` and `new_tokens_seen` are bound
(a report boundary has already executed; its token delta was 11). -/
def stateBound : LoopState := ⟨⟨5, 7, 2⟩, some (9/2), some 11, []⟩

/-- A state in which no report boundary has executed yet: `train_loss` and
`new_tokens_seen` are both unassigned. -/
def stateUnbound : LoopState := ⟨⟨5, 7, 2⟩, none, none, []⟩

/-- A configuration whose report boundary (interval 9) lies beyond the step
budget `num_steps = 4` while checkpoint boundaries (interval 2) do occur. -/
def cfgNoReport : train_config := ⟨1, true, "fsdp", 1, 4, false, 9, 2⟩

/-- A one-step configuration with no report and no checkpoint boundary in
range (both intervals 9, `num_steps = 1`). -/
def cfgNoBoundary : train_config := ⟨1, true, "fsdp", 1, 1, false, 9, 9⟩

/-- A single-batch loader. -/
def loaderOne : List StepInput := [⟨1, 1, 1⟩]

/-- A configuration whose sharding-strategy string is the unrecognized
value "xyz". -/
def cfgXyz : train_config := ⟨7, true, "xyz", 2, 3, false, 2, 2⟩

section ReductionLemmas

lemma workerStats_foldl (samples : List (ℚ × ℚ)) (init : Stats) :
    samples.foldl accumulate init =
      ⟨init.lossSum + (samples.map Prod.fst).sum,
       init.gnormSum + (samples.map Prod.snd).sum,
       init.count + samples.length⟩ := by
  induction samples generalizing init with
  | nil => simp
  | cons x xs ih =>
      simp only [List.foldl_cons, ih, accumulate, List.map_cons, List.sum_cons,
        List.length_cons]
      simp only [Stats.mk.injEq]
      refine ⟨?_, ?_, ?_⟩ <;> push_cast <;> ring

lemma workerStats_eq (samples : List (ℚ × ℚ)) :
    workerStats samples =
      ⟨(samples.map Prod.fst).sum, (samples.map Prod.snd).sum,
        samples.length⟩ := by
  simp [workerStats, workerStats_foldl, Stats.zero]

lemma allReduceSum_foldl (ws : List Stats) (init : Stats) :
    ws.foldl Stats.add init =
      ⟨init.lossSum + (ws.map Stats.lossSum).sum,
       init.gnormSum + (ws.map Stats.gnormSum).sum,
       init.count + (ws.map Stats.count).sum⟩ := by
  induction ws generalizing init with
  | nil => simp
  | cons x xs ih =>
      simp only [List.foldl_cons, ih, Stats.add, List.map_cons, List.sum_cons]
      simp only [Stats.mk.injEq]
      refine ⟨?_, ?_, ?_⟩ <;> ring

lemma allReduceSum_workerStats (workers : List (List (ℚ × ℚ))) :
    allReduceSum (workers.map workerStats) =
      ⟨((workers.flatten).map Prod.fst).sum,
       ((workers.flatten).map Prod.snd).sum,
       (workers.flatten).length⟩ := by
  simp only [allReduceSum, allReduceSum_foldl, Stats.zero, zero_add]
  simp only [Stats.mk.injEq]
  refine ⟨?_, ?_, ?_⟩
  · induction workers with
    | nil => simp
    | cons w ws ih =>
        simp only [List.map_cons, List.sum_cons, List.flatten_cons,
          List.map_append, List.sum_append, workerStats_eq]
        rw [ih]
  · induction workers with
    | nil => simp
    | cons w ws ih =>
        simp only [List.map_cons, List.sum_cons, List.flatten_cons,
          List.map_append, List.sum_append, workerStats_eq]
        rw [ih]
  · induction workers with
    | nil => simp
    | cons w ws ih =>
        simp only [List.map_cons, List.sum_cons, List.flatten_cons,
          List.length_append, Nat.cast_add, workerStats_eq]
        rw [ih]

end ReductionLemmas

section StepLemmas

variable (cfg : train_config) (env : Environ) (others : Nat → Stats)
variable (rank start_step tokens_seen : Nat) (loop_start : ℚ)
variable (batch_idx : Nat) (b : StepInput) (s : LoopState)

lemma stepBody_quiet
    (hri : batch_idx % cfg.report_interval ≠ 0)
    (hci : batch_idx % cfg.checkpoint_interval ≠ 0) :
    stepBody cfg env others rank start_step tokens_seen loop_start batch_idx b s =
      Except.ok { s with ddp_stats := accumulate s.ddp_stats (b.loss, b.gnorm) } := by
  simp [stepBody, hri, hci, bind, Except.bind, pure, Except.pure]

lemma stepBody_ckpt_only_bound (v : Nat)
    (hri : batch_idx % cfg.report_interval ≠ 0)
    (hci : batch_idx % cfg.checkpoint_interval = 0)
    (hv : s.new_tokens_seen = some v) :
    stepBody cfg env others rank start_step tokens_seen loop_start batch_idx b s =
      Except.ok { s with
        ddp_stats := accumulate s.ddp_stats (b.loss, b.gnorm),
        events := s.events ++ [Event.save batch_idx (tokens_seen + v)] } := by
  simp [stepBody, hri, hci, hv, bind, Except.bind, pure, Except.pure]

lemma stepBody_ckpt_only_unbound
    (hri : batch_idx % cfg.report_interval ≠ 0)
    (hci : batch_idx % cfg.checkpoint_interval = 0)
    (hv : s.new_tokens_seen = none) :
    stepBody cfg env others rank start_step tokens_seen loop_start batch_idx b s =
      Except.error (TrainError.unboundNewTokensSeen, s.events) := by
  simp [stepBody, hri, hci, hv, bind, Except.bind, pure, Except.pure, throw,
    throwThe, MonadExceptOf.throw]

lemma stepBody_report_no_world
    (hri : batch_idx % cfg.report_interval = 0)
    (hw : env.WORLD_SIZE = none) :
    stepBody cfg env others rank start_step tokens_seen loop_start batch_idx b s =
      Except.error (TrainError.keyErrorWorldSize, s.events) := by
  simp [stepBody, hri, hw, bind, Except.bind, pure, Except.pure, throw, throwThe,
    MonadExceptOf.throw]

lemma stepBody_report_bound (w : Nat)
    (hri : batch_idx % cfg.report_interval = 0)
    (hw : env.WORLD_SIZE = some w) :
    stepBody cfg env others rank start_step tokens_seen loop_start batch_idx b s =
      Except.ok
        (let reduced := Stats.add (accumulate s.ddp_stats (b.loss, b.gnorm))
          (others batch_idx)
        let ntk := (batch_idx - start_step) * w * cfg.batch_size * cfg.seq_length
        let evs :=
          if rank = 0 then
            s.events ++ [Event.report batch_idx (avgLoss reduced) (avgGnorm reduced)
              (tokens_seen + ntk)
              (pyInt ((ntk : ℚ) / (w : ℚ) / (b.now - loop_start)))
              (pyInt ((ntk : ℚ) / (b.now - loop_start) * (3600 * 24)))]
          else s.events
        LoopState.mk Stats.zero (some (avgLoss reduced)) (some ntk)
          (if batch_idx % cfg.checkpoint_interval = 0 then
            evs ++ [Event.save batch_idx (tokens_seen + ntk)]
          else evs)) := by
  by_cases hci : batch_idx % cfg.checkpoint_interval = 0 <;>
    simp [stepBody, hri, hw, hci, avgLoss, avgGnorm, bind, Except.bind, pure,
      Except.pure]

lemma stepBody_trainLoss_of_ok (s' : LoopState)
    (hok : stepBody cfg env others rank start_step tokens_seen loop_start
      batch_idx b s = Except.ok s') :
    s'.train_loss = s.train_loss ∨ batch_idx % cfg.report_interval = 0 := by
  by_cases hri : batch_idx % cfg.report_interval = 0
  · exact Or.inr hri
  · left
    by_cases hci : batch_idx % cfg.checkpoint_interval = 0
    · cases hv : s.new_tokens_seen with
      | none =>
          rw [stepBody_ckpt_only_unbound cfg env others rank start_step
            tokens_seen loop_start batch_idx b s hri hci hv] at hok
          cases hok
      | some v =>
          rw [stepBody_ckpt_only_bound cfg env others rank start_step
            tokens_seen loop_start batch_idx b s v hri hci hv] at hok
          cases hok
          rfl
    · rw [stepBody_quiet cfg env others rank start_step tokens_seen loop_start
        batch_idx b s hri hci] at hok
      cases hok
      rfl

end StepLemmas

section RunLemmas

variable (cfg : train_config) (env : Environ) (others : Nat → Stats)
variable (rank start_step tokens_seen : Nat) (loop_start : ℚ)

lemma runFrom_trainLoss_of_ok :
    ∀ (inputs : List StepInput) (idx : Nat) (s s' : LoopState),
      runFrom cfg env others rank start_step tokens_seen loop_start idx inputs s =
        Except.ok s' →
      s'.train_loss = s.train_loss ∨
        ∃ k, idx ≤ k ∧ k ≤ cfg.num_steps ∧ k % cfg.report_interval = 0 := by
  intro inputs
  induction inputs with
  | nil =>
      intro idx s s' hok
      simp only [runFrom, pure, Except.pure, Except.ok.injEq] at hok
      exact Or.inl (hok ▸ rfl)
  | cons b bs ih =>
      intro idx s s' hok
      by_cases hgt : idx > cfg.num_steps
      · simp only [runFrom, if_pos hgt, pure, Except.pure, Except.ok.injEq] at hok
        exact Or.inl (hok ▸ rfl)
      · rw [runFrom, if_neg hgt] at hok
        cases hsb : stepBody cfg env others rank start_step tokens_seen loop_start
            idx b s with
        | error e => rw [hsb] at hok; simp [bind, Except.bind] at hok
        | ok s1 =>
            rw [hsb] at hok
            simp only [bind, Except.bind] at hok
            rcases ih (idx + 1) s1 s' hok with h | ⟨k, hk1, hk2, hk3⟩
            · rcases stepBody_trainLoss_of_ok cfg env others rank start_step
                  tokens_seen loop_start idx b s s1 hsb with h2 | h2
              · exact Or.inl (h.trans h2)
              · exact Or.inr ⟨idx, Nat.le_refl idx, Nat.le_of_not_lt hgt, h2⟩
            · exact Or.inr ⟨k, by omega, hk2, hk3⟩

lemma runFrom_no_boundary :
    ∀ (inputs : List StepInput) (idx : Nat) (stats0 : Stats) (tl : Option ℚ)
      (ntk : Option Nat) (evs : List Event),
      (∀ m, m < inputs.length → idx + m ≤ cfg.num_steps →
        (idx + m) % cfg.report_interval ≠ 0 ∧
        (idx + m) % cfg.checkpoint_interval ≠ 0) →
      ∃ stats1,
        runFrom cfg env others rank start_step tokens_seen loop_start idx inputs
          ⟨stats0, tl, ntk, evs⟩ = Except.ok ⟨stats1, tl, ntk, evs⟩ := by
  intro inputs
  induction inputs with
  | nil =>
      intro idx stats0 tl ntk evs _
      exact ⟨stats0, by simp [runFrom, pure, Except.pure]⟩
  | cons b bs ih =>
      intro idx stats0 tl ntk evs H
      by_cases hgt : idx > cfg.num_steps
      · exact ⟨stats0, by simp [runFrom, hgt, pure, Except.pure]⟩
      · have h0 := H 0 (by simp) (by omega)
        simp only [Nat.add_zero] at h0
        obtain ⟨stats1, hrec⟩ := ih (idx + 1)
          (accumulate stats0 (b.loss, b.gnorm)) tl ntk evs
          (by
            intro m hm hle
            have h := H (m + 1) (by simpa using Nat.succ_lt_succ hm) (by omega)
            have e : idx + (m + 1) = idx + 1 + m := by omega
            rw [e] at h
            exact h)
        refine ⟨stats1, ?_⟩
        rw [runFrom, if_neg hgt, stepBody_quiet cfg env others rank start_step
          tokens_seen loop_start idx b ⟨stats0, tl, ntk, evs⟩ h0.1 h0.2]
        simpa [bind, Except.bind] using hrec

lemma runFrom_no_world (hw : env.WORLD_SIZE = none) :
    ∀ (inputs : List StepInput) (idx : Nat) (stats0 : Stats) (evs : List Event),
      (∃ stats1,
        runFrom cfg env others rank start_step tokens_seen loop_start idx inputs
          ⟨stats0, none, none, evs⟩ = Except.ok ⟨stats1, none, none, evs⟩) ∨
      (∃ err,
        runFrom cfg env others rank start_step tokens_seen loop_start idx inputs
          ⟨stats0, none, none, evs⟩ = Except.error (err, evs)) := by
  intro inputs
  induction inputs with
  | nil =>
      intro idx stats0 evs
      exact Or.inl ⟨stats0, by simp [runFrom, pure, Except.pure]⟩
  | cons b bs ih =>
      intro idx stats0 evs
      by_cases hgt : idx > cfg.num_steps
      · exact Or.inl ⟨stats0, by simp [runFrom, hgt, pure, Except.pure]⟩
      · by_cases hri : idx % cfg.report_interval = 0
        · refine Or.inr ⟨TrainError.keyErrorWorldSize, ?_⟩
          rw [runFrom, if_neg hgt, stepBody_report_no_world cfg env others rank
            start_step tokens_seen loop_start idx b ⟨stats0, none, none, evs⟩ hri hw]
          simp [bind, Except.bind]
        · by_cases hci : idx % cfg.checkpoint_interval = 0
          · refine Or.inr ⟨TrainError.unboundNewTokensSeen, ?_⟩
            rw [runFrom, if_neg hgt, stepBody_ckpt_only_unbound cfg env others
              rank start_step tokens_seen loop_start idx b
              ⟨stats0, none, none, evs⟩ hri hci rfl]
            simp [bind, Except.bind]
          · rcases ih (idx + 1) (accumulate stats0 (b.loss, b.gnorm)) evs with
              ⟨stats1, hrec⟩ | ⟨err, hrec⟩
            · refine Or.inl ⟨stats1, ?_⟩
              rw [runFrom, if_neg hgt, stepBody_quiet cfg env others rank
                start_step tokens_seen loop_start idx b
                ⟨stats0, none, none, evs⟩ hri hci]
              simpa [bind, Except.bind] using hrec
            · refine Or.inr ⟨err, ?_⟩
              rw [runFrom, if_neg hgt, stepBody_quiet cfg env others rank
                start_step tokens_seen loop_start idx b
                ⟨stats0, none, none, evs⟩ hri hci]
              simpa [bind, Except.bind] using hrec

lemma runFrom_ckpt_before_report :
    ∀ (inputs : List StepInput) (idx : Nat) (stats0 : Stats) (tl : Option ℚ)
      (evs : List Event),
      (∀ m, m < inputs.length → idx + m ≤ cfg.num_steps →
        (idx + m) % cfg.report_interval ≠ 0) →
      (∃ m, m < inputs.length ∧ idx + m ≤ cfg.num_steps ∧
        (idx + m) % cfg.checkpoint_interval = 0) →
      runFrom cfg env others rank start_step tokens_seen loop_start idx inputs
        ⟨stats0, tl, none, evs⟩ =
        Except.error (TrainError.unboundNewTokensSeen, evs) := by
  intro inputs
  induction inputs with
  | nil =>
      intro idx stats0 tl evs _ hE
      obtain ⟨m, hm, -, -⟩ := hE
      exact absurd hm (by simp)
  | cons b bs ih =>
      intro idx stats0 tl evs hA hE
      obtain ⟨m, hm, hmle, hmci⟩ := hE
      simp only [List.length_cons] at hm
      have hgt : ¬ idx > cfg.num_steps := by omega
      have hidx : idx ≤ cfg.num_steps := by omega
      have hri : idx % cfg.report_interval ≠ 0 := hA 0 (by simp) (by omega)
      by_cases hci : idx % cfg.checkpoint_interval = 0
      · rw [runFrom, if_neg hgt, stepBody_ckpt_only_unbound cfg env others rank
          start_step tokens_seen loop_start idx b ⟨stats0, tl, none, evs⟩ hri hci
          rfl]
        simp [bind, Except.bind]
      · have hm0 : m ≠ 0 := by
          intro h
          rw [h, Nat.add_zero] at hmci
          exact hci hmci
        rw [runFrom, if_neg hgt, stepBody_quiet cfg env others rank start_step
          tokens_seen loop_start idx b ⟨stats0, tl, none, evs⟩ hri hci]
        simp only [bind, Except.bind]
        exact ih (idx + 1) (accumulate stats0 (b.loss, b.gnorm)) tl evs
          (by
            intro m' hm' hle
            have h := hA (m' + 1) (by simpa using Nat.succ_lt_succ hm') (by omega)
            have e : idx + (m' + 1) = idx + 1 + m' := by omega
            rw [e] at h
            exact h)
          ⟨m - 1, by omega, by omega, by
            have e : idx + 1 + (m - 1) = idx + m := by omega
            rw [e]
            exact hmci⟩

end RunLemmas

/-! ### Claim theorems -/

/-- C1 (counterexample): in the §8 end-to-end scenario (`num_steps = 3`,
`report_interval = 2`, `checkpoint_interval = 2`, one worker, losses
1, 2, 3, grad-norms 0.1, 0.2, 0.3, `start_step = 0`) the value `train`
returns is 3/2 — the average loss computed at the step-2 report — and not
3.0 as the claim states. -/
theorem c1_scenario_counterexample :
    train cfgScenario env1 noOthers 0 loaderScenario 0 0 0 =
      Except.ok (3/2,
        [Event.report 2 (3/2) (3/20) 28 14 1209600, Event.save 2 28]) ∧
    (3 : ℚ)/2 ≠ 3 := by
  constructor
  · norm_num [train, runFrom, stepBody, pyInt, avgLoss, avgGnorm, accumulate,
      Stats.add, Stats.zero, LoopState.init, cfgScenario, env1, loaderScenario,
      noOthers, pure, Except.pure, bind, Except.bind, throw, throwThe,
      MonadExceptOf.throw]
  · norm_num

/-- C1 (amended): in the §8 scenario, step 3 does execute (the loop stops
only when `batch_idx > num_steps`: the final state still holds step 3's
loss 3 and grad-norm 0.3 with count 1, accumulated after the step-2
reset), a report fires at step 2 with average loss 1.5 and average
grad-norm 0.15, and the value returned at the end of the loop is 1.5 —
the average loss last computed at a report boundary (step 2), per §4.4's
"the last computed average loss is returned"; step 3's loss 3.0 is
accumulated but never reported or returned. -/
theorem c1_scenario_amended :
    train cfgScenario env1 noOthers 0 loaderScenario 0 0 0 =
      Except.ok (3/2,
        [Event.report 2 (3/2) (3/20) 28 14 1209600, Event.save 2 28]) ∧
    runFrom cfgScenario env1 noOthers 0 0 0 0 1 loaderScenario LoopState.init =
      Except.ok ⟨⟨3, 3/10, 1⟩, some (3/2), some 28,
        [Event.report 2 (3/2) (3/20) 28 14 1209600, Event.save 2 28]⟩ := by
  constructor
  · norm_num [train, runFrom, stepBody, pyInt, avgLoss, avgGnorm, accumulate,
      Stats.add, Stats.zero, LoopState.init, cfgScenario, env1, loaderScenario,
      noOthers, pure, Except.pure, bind, Except.bind, throw, throwThe,
      MonadExceptOf.throw]
  · norm_num [runFrom, stepBody, pyInt, avgLoss, avgGnorm, accumulate,
      Stats.add, Stats.zero, LoopState.init, cfgScenario, env1, loaderScenario,
      noOthers, pure, Except.pure, bind, Except.bind, throw, throwThe,
      MonadExceptOf.throw]

/-- C2: for every assignment of per-step `(loss, grad-norm)` samples to
workers over one report interval, the reported averages — summed slot
divided by count slot after the sum all-reduce — equal the arithmetic mean
of all samples across all workers, independent of how the samples are
distributed among workers (the statement quantifies over every such
distribution `workers`; the mean of the concatenation is invariant under
reordering since it is a sum divided by a length). -/
theorem c2_reduction_global_mean (workers : List (List (ℚ × ℚ)))
    (h : workers.flatten ≠ []) :
    avgLoss (allReduceSum (workers.map workerStats)) =
      ((workers.flatten).map Prod.fst).sum / ((workers.flatten).length : ℚ) ∧
    avgGnorm (allReduceSum (workers.map workerStats)) =
      ((workers.flatten).map Prod.snd).sum / ((workers.flatten).length : ℚ) := by
  rw [allReduceSum_workerStats]
  exact ⟨rfl, rfl⟩

/-- C2 (witness): the two-worker example `[[(1,2),(2,3)],[(3,4)]]` is a
nonempty interval and the theorem applies to it. -/
theorem c2_reduction_global_mean_witness :
    workersExample.flatten ≠ [] ∧
    (avgLoss (allReduceSum (workersExample.map workerStats)) =
      ((workersExample.flatten).map Prod.fst).sum /
        ((workersExample.flatten).length : ℚ) ∧
    avgGnorm (allReduceSum (workersExample.map workerStats)) =
      ((workersExample.flatten).map Prod.snd).sum /
        ((workersExample.flatten).length : ℚ)) :=
  ⟨by simp [workersExample],
   c2_reduction_global_mean workersExample (by simp [workersExample])⟩

/-- C4 (counterexample): a bf16 capability probe that raises is NOT caught
inside `get_policies`: with `mixed_precision = true` and a probe that
raises, selection propagates the exception to the caller instead of
returning the fp16 fallback. -/
theorem c4_probe_counterexample :
    get_policies cfgScenario hwRaising = Except.error () := by
  rfl

/-- C4 (amended): `get_policies` has no `try/except` around the hardware
probes: an exception raised by any evaluated probe propagates unchanged to
the caller.  The fp16 fallback occurs only when every evaluated probe
completes without raising and the bf16 capability check comes out false;
in that case, with `mixed_precision` true, the selected policy is
fpSixteen (not bfSixteen) and selection does not raise. -/
theorem c4_probe_amended :
    (∀ (ε : Type) (cfg : train_config) (hw : Hardware ε) (e : ε),
      verify_bfloat_support hw = Except.error e →
      get_policies cfg hw = Except.error e) ∧
    (∀ (ε : Type) (cfg : train_config) (hw : Hardware ε),
      cfg.mixed_precision = true →
      verify_bfloat_support hw = Except.ok false →
      get_policies cfg hw = Except.ok
        (some MixedPrecision.fpSixteen, shardingStrategyOf cfg.sharding_strategy)) := by
  constructor
  · intro ε cfg hw e hv
    simp [get_policies, hv, bind, Except.bind]
  · intro ε cfg hw hmp hv
    simp [get_policies, hv, hmp, bind, Except.bind, pure, Except.pure]

/-- C4 (witness): the amended theorem applied to a raising probe (the
exception propagates) and to completing probes that report bf16
unsupported (fp16 fallback, no error). -/
theorem c4_probe_amended_witness :
    (verify_bfloat_support hwRaising = Except.error () ∧
      get_policies cfgCkptFirst hwRaising = Except.error ()) ∧
    (cfgScenario.mixed_precision = true ∧
      verify_bfloat_support hwNoBf16 = Except.ok false ∧
      get_policies cfgScenario hwNoBf16 = Except.ok
        (some MixedPrecision.fpSixteen,
          shardingStrategyOf cfgScenario.sharding_strategy)) :=
  ⟨⟨by rfl, c4_probe_amended.1 Unit cfgCkptFirst hwRaising () (by rfl)⟩,
   ⟨by rfl, by rfl, c4_probe_amended.2 Unit cfgScenario hwNoBf16 (by rfl) (by rfl)⟩⟩

/-- C5: the sharding strategy is mapped from the configuration string by
the exact enumeration "fsdp" → full-shard, "hsdp" → hybrid-shard, "ddp" →
no-shard, and every other string yields full-shard; moreover whenever
`get_policies` returns at all, the sharding component of its result is
exactly this mapping of `cfg.sharding_strategy` (the mapping itself is a
total function — it raises no error). -/
theorem c5_sharding_map :
    shardingStrategyOf "fsdp" = ShardingStrategy.FULL_SHARD ∧
    shardingStrategyOf "hsdp" = ShardingStrategy.HYBRID_SHARD ∧
    shardingStrategyOf "ddp" = ShardingStrategy.NO_SHARD ∧
    (∀ s : String, s ≠ "fsdp" → s ≠ "hsdp" → s ≠ "ddp" →
      shardingStrategyOf s = ShardingStrategy.FULL_SHARD) ∧
    (∀ (ε : Type) (cfg : train_config) (hw : Hardware ε)
      (r : Option MixedPrecision × ShardingStrategy),
      get_policies cfg hw = Except.ok r →
      r.2 = shardingStrategyOf cfg.sharding_strategy) := by
  refine ⟨rfl, rfl, rfl, ?_, ?_⟩
  · intro s h1 h2 h3
    simp [shardingStrategyOf, h1, h2, h3]
  · intro ε cfg hw r hok
    cases hv : verify_bfloat_support hw with
    | error e => simp [get_policies, hv, bind, Except.bind] at hok
    | ok v =>
        simp only [get_policies, hv, bind, Except.bind, pure, Except.pure,
          Except.ok.injEq] at hok
        rw [← hok]

/-- C5 (witness): the unrecognized string "xyz" maps to full-shard without
an error, and a completed `get_policies` run on the "xyz" configuration
returns that mapping. -/
theorem c5_sharding_map_witness :
    ("xyz" ≠ "fsdp" ∧ "xyz" ≠ "hsdp" ∧ "xyz" ≠ "ddp") ∧
    shardingStrategyOf "xyz" = ShardingStrategy.FULL_SHARD ∧
    (get_policies cfgXyz hwNoBf16 =
      Except.ok (some MixedPrecision.fpSixteen, ShardingStrategy.FULL_SHARD) ∧
    (some MixedPrecision.fpSixteen, ShardingStrategy.FULL_SHARD).2 =
      shardingStrategyOf cfgXyz.sharding_strategy) :=
  ⟨⟨by decide, by decide, by decide⟩,
   c5_sharding_map.2.2.2.1 "xyz" (by decide) (by decide) (by decide),
   by rfl,
   c5_sharding_map.2.2.2.2 Unit cfgXyz hwNoBf16
     (some MixedPrecision.fpSixteen, ShardingStrategy.FULL_SHARD) (by rfl)⟩

/-- C3 (counterexample): the save is NOT invoked at every step whose index
is a multiple of `checkpoint_interval`: with `checkpoint_interval = 2` and
`report_interval = 3`, step 2 satisfies `2 % checkpoint_interval == 0` but
the run raises `UnboundLocalError` on `new_tokens_seen` (line 142, no
report boundary has executed yet) with an empty event trace — no save was
issued. -/
theorem c3_checkpoint_counterexample :
    train cfgCkptFirst env1 noOthers 0 loaderUnit 0 0 0 =
      Except.error (TrainError.unboundNewTokensSeen, ([] : List Event)) ∧
    2 % cfgCkptFirst.checkpoint_interval = 0 := by
  constructor
  · norm_num [train, runFrom, stepBody, pyInt, avgLoss, avgGnorm, accumulate,
      Stats.add, Stats.zero, LoopState.init, cfgCkptFirst, env1, loaderUnit,
      noOthers, pure, Except.pure, bind, Except.bind, throw, throwThe,
      MonadExceptOf.throw]
  · rfl

/-- C3 (amended): for every executed step, `checkpointer.save` is invoked
exactly when `batch_idx % checkpoint_interval == 0` AND `new_tokens_seen`
is bound (some report boundary has already executed at or before this
step); the call passes the step index, the model/optimizer/data-loader
handles (the fixed collaborator arguments of `train`) and `tokens_seen +
new_tokens_seen`, where `new_tokens_seen` is the token delta of the most
recent report boundary — freshly computed when the step is itself a report
boundary, else the value stored at the last one.  At a checkpoint step
before any report boundary the code raises `UnboundLocalError` instead of
saving. -/
theorem c3_checkpoint_trigger_amended :
    (∀ (cfg : train_config) (env : Environ) (others : Nat → Stats)
      (rank start_step tokens_seen : Nat) (loop_start : ℚ) (batch_idx : Nat)
      (b : StepInput) (s s' : LoopState),
      batch_idx % cfg.checkpoint_interval ≠ 0 →
      stepBody cfg env others rank start_step tokens_seen loop_start batch_idx
        b s = Except.ok s' →
      s'.events.filter Event.isSave = s.events.filter Event.isSave) ∧
    (∀ (cfg : train_config) (env : Environ) (others : Nat → Stats)
      (rank start_step tokens_seen : Nat) (loop_start : ℚ) (batch_idx : Nat)
      (b : StepInput) (s : LoopState) (w : Nat),
      batch_idx % cfg.report_interval = 0 →
      batch_idx % cfg.checkpoint_interval = 0 →
      env.WORLD_SIZE = some w →
      ∃ s', stepBody cfg env others rank start_step tokens_seen loop_start
          batch_idx b s = Except.ok s' ∧
        s'.events.filter Event.isSave = s.events.filter Event.isSave ++
          [Event.save batch_idx (tokens_seen +
            (batch_idx - start_step) * w * cfg.batch_size * cfg.seq_length)]) ∧
    (∀ (cfg : train_config) (env : Environ) (others : Nat → Stats)
      (rank start_step tokens_seen : Nat) (loop_start : ℚ) (batch_idx : Nat)
      (b : StepInput) (s : LoopState) (v : Nat),
      batch_idx % cfg.report_interval ≠ 0 →
      batch_idx % cfg.checkpoint_interval = 0 →
      s.new_tokens_seen = some v →
      ∃ s', stepBody cfg env others rank start_step tokens_seen loop_start
          batch_idx b s = Except.ok s' ∧
        s'.events.filter Event.isSave =
          s.events.filter Event.isSave ++ [Event.save batch_idx (tokens_seen + v)]) ∧
    (∀ (cfg : train_config) (env : Environ) (others : Nat → Stats)
      (rank start_step tokens_seen : Nat) (loop_start : ℚ) (batch_idx : Nat)
      (b : StepInput) (s : LoopState),
      batch_idx % cfg.report_interval ≠ 0 →
      batch_idx % cfg.checkpoint_interval = 0 →
      s.new_tokens_seen = none →
      stepBody cfg env others rank start_step tokens_seen loop_start batch_idx
        b s = Except.error (TrainError.unboundNewTokensSeen, s.events)) := by
  refine ⟨?_, ?_, ?_, ?_⟩
  · intro cfg env others rank start_step tokens_seen loop_start batch_idx b s s'
      hci hok
    by_cases hri : batch_idx % cfg.report_interval = 0
    · cases hw : env.WORLD_SIZE with
      | none =>
          rw [stepBody_report_no_world cfg env others rank start_step
            tokens_seen loop_start batch_idx b s hri hw] at hok
          cases hok
      | some w =>
          rw [stepBody_report_bound cfg env others rank start_step tokens_seen
            loop_start batch_idx b s w hri hw] at hok
          injection hok with h
          subst h
          by_cases hr : rank = 0 <;>
            simp [hr, hci, Event.isSave, List.filter_append]
    · by_cases hci2 : batch_idx % cfg.checkpoint_interval = 0
      · exact absurd hci2 hci
      · rw [stepBody_quiet cfg env others rank start_step tokens_seen
          loop_start batch_idx b s hri hci2] at hok
        injection hok with h
        subst h
        rfl
  · intro cfg env others rank start_step tokens_seen loop_start batch_idx b s w
      hri hci hw
    refine ⟨_, stepBody_report_bound cfg env others rank start_step tokens_seen
      loop_start batch_idx b s w hri hw, ?_⟩
    by_cases hr : rank = 0 <;>
      simp [hr, hci, Event.isSave, List.filter_append]
  · intro cfg env others rank start_step tokens_seen loop_start batch_idx b s v
      hri hci hv
    refine ⟨_, stepBody_ckpt_only_bound cfg env others rank start_step
      tokens_seen loop_start batch_idx b s v hri hci hv, ?_⟩
    simp [Event.isSave, List.filter_append]
  · intro cfg env others rank start_step tokens_seen loop_start batch_idx b s
      hri hci hv
    exact stepBody_ckpt_only_unbound cfg env others rank start_step tokens_seen
      loop_start batch_idx b s hri hci hv

/-- C3 (witness): the amended theorem applied at concrete steps: a
non-boundary step appends no save; a report-and-checkpoint step saves the
fresh delta; a checkpoint-only step saves the stored delta 11; a
checkpoint step before any report raises with no save. -/
theorem c3_checkpoint_trigger_amended_witness :
    ((⟨⟨7, 10, 3⟩, some (9/2), some 11, []⟩ : LoopState).events.filter
        Event.isSave = stateBound.events.filter Event.isSave) ∧
    (∃ s', stepBody cfgScenario env1 noOthers 3 0 0 0 2 stepSample stateBound =
        Except.ok s' ∧
      s'.events.filter Event.isSave = stateBound.events.filter Event.isSave ++
        [Event.save 2 (0 + (2 - 0) * 1 * cfgScenario.batch_size *
          cfgScenario.seq_length)]) ∧
    (∃ s', stepBody cfgCkptFirst env1 noOthers 0 0 0 0 2 stepSample stateBound =
        Except.ok s' ∧
      s'.events.filter Event.isSave = stateBound.events.filter Event.isSave ++
        [Event.save 2 (0 + 11)]) ∧
    stepBody cfgCkptFirst env1 noOthers 0 0 0 0 2 stepSample stateUnbound =
      Except.error (TrainError.unboundNewTokensSeen, stateUnbound.events) :=
  ⟨c3_checkpoint_trigger_amended.1 cfgScenario env1 noOthers 3 0 0 0 1
      stepSample stateBound ⟨⟨7, 10, 3⟩, some (9/2), some 11, []⟩ (by decide)
      (by norm_num [stepBody, cfgScenario, env1, noOthers, stateBound,
        stepSample, accumulate, bind, Except.bind, pure, Except.pure]),
   c3_checkpoint_trigger_amended.2.1 cfgScenario env1 noOthers 3 0 0 0 2
      stepSample stateBound 1 (by decide) (by decide) (by rfl),
   c3_checkpoint_trigger_amended.2.2.1 cfgCkptFirst env1 noOthers 0 0 0 0 2
      stepSample stateBound 11 (by decide) (by decide) (by rfl),
   c3_checkpoint_trigger_amended.2.2.2 cfgCkptFirst env1 noOthers 0 0 0 0 2
      stepSample stateUnbound (by decide) (by decide) (by rfl)⟩

/-- C6 (counterexample): the reported throughput does NOT equal
(tokens this interval / worker count) / elapsed time since the last report
at the second report boundary.  With `report_interval = 1`,
`world_size = 1`, `batch_size = 1`, `seq_length = 100`, loop started at
time 0 and report blocks at times 1 and 3: the second report emits
`int(200 / 1 / 3) = 66` (cumulative tokens over time since loop start,
`loop_start` is never reset), while the claimed formula gives
`int(100 / 1 / 2) = 50`. -/
theorem c6_throughput_counterexample :
    train cfgEveryStep env1 noOthers 0 loaderTimes 0 0 0 =
      Except.ok (1, [Event.report 1 1 1 100 100 8640000,
        Event.report 2 1 1 200 66 5760000]) ∧
    (66 : ℤ) ≠ pyInt ((100 : ℚ) / 1 / 2) := by
  constructor
  · norm_num [train, runFrom, stepBody, pyInt, avgLoss, avgGnorm, accumulate,
      Stats.add, Stats.zero, LoopState.init, cfgEveryStep, env1, loaderTimes,
      noOthers, pure, Except.pure, bind, Except.bind, throw, throwThe,
      MonadExceptOf.throw]
  · norm_num [pyInt]

/-- C6 (amended): at every report boundary the reported throughput is
`int(new_tokens_seen / world_size / elapsed_time)` where `new_tokens_seen
= (batch_idx - start_step) * world_size * batch_size * seq_length` is the
CUMULATIVE token count since `start_step` (not this interval's) and
`elapsed_time = now - loop_start` is the wall time since the loop started
(`loop_start` is set once, line 60, and never reset) — not since the last
report; tokens-per-day is `int(new_tokens_seen / elapsed_time * 3600 *
24)`, the same cumulative extrapolation.  The two agree with the claimed
interval-based formula only at the first report boundary. -/
theorem c6_throughput_amended :
    ∀ (cfg : train_config) (env : Environ) (others : Nat → Stats)
      (start_step tokens_seen : Nat) (loop_start : ℚ) (batch_idx : Nat)
      (b : StepInput) (s : LoopState) (w : Nat),
      batch_idx % cfg.report_interval = 0 →
      env.WORLD_SIZE = some w →
      ∃ (s' : LoopState) (tail : List Event),
        stepBody cfg env others 0 start_step tokens_seen loop_start batch_idx
          b s = Except.ok s' ∧
        s'.events = s.events ++
          Event.report batch_idx
            (avgLoss (Stats.add (accumulate s.ddp_stats (b.loss, b.gnorm))
              (others batch_idx)))
            (avgGnorm (Stats.add (accumulate s.ddp_stats (b.loss, b.gnorm))
              (others batch_idx)))
            (tokens_seen +
              (batch_idx - start_step) * w * cfg.batch_size * cfg.seq_length)
            (pyInt ((((batch_idx - start_step) * w * cfg.batch_size *
              cfg.seq_length : Nat) : ℚ) / (w : ℚ) / (b.now - loop_start)))
            (pyInt ((((batch_idx - start_step) * w * cfg.batch_size *
              cfg.seq_length : Nat) : ℚ) / (b.now - loop_start) * (3600 * 24)))
          :: tail := by
  intro cfg env others start_step tokens_seen loop_start batch_idx b s w hri hw
  refine ⟨_, if batch_idx % cfg.checkpoint_interval = 0 then
      [Event.save batch_idx (tokens_seen +
        (batch_idx - start_step) * w * cfg.batch_size * cfg.seq_length)]
    else [],
    stepBody_report_bound cfg env others 0 start_step tokens_seen loop_start
      batch_idx b s w hri hw, ?_⟩
  by_cases hci : batch_idx % cfg.checkpoint_interval = 0 <;> simp [hci]

/-- C6 (witness): the amended theorem applied at the second report
boundary of the two-report run (`batch_idx = 2`, report time 3, loop
started at 0). -/
theorem c6_throughput_amended_witness :
    ∃ (s' : LoopState) (tail : List Event),
      stepBody cfgEveryStep env1 noOthers 0 0 0 0 2 (⟨1, 1, 3⟩ : StepInput)
        stateBound = Except.ok s' ∧
      s'.events = stateBound.events ++
        Event.report 2
          (avgLoss (Stats.add (accumulate stateBound.ddp_stats (1, 1))
            (noOthers 2)))
          (avgGnorm (Stats.add (accumulate stateBound.ddp_stats (1, 1))
            (noOthers 2)))
          (0 + (2 - 0) * 1 * cfgEveryStep.batch_size * cfgEveryStep.seq_length)
          (pyInt ((((2 - 0) * 1 * cfgEveryStep.batch_size *
            cfgEveryStep.seq_length : Nat) : ℚ) / (1 : ℚ) / ((3 : ℚ) - 0)))
          (pyInt ((((2 - 0) * 1 * cfgEveryStep.batch_size *
            cfgEveryStep.seq_length : Nat) : ℚ) / ((3 : ℚ) - 0) * (3600 * 24)))
        :: tail :=
  c6_throughput_amended cfgEveryStep env1 noOthers 0 0 0 2 ⟨1, 1, 3⟩
    stateBound 1 (by decide) (by rfl)

/-- C7: on every worker (any rank), after every step that performs the
reduction (a report boundary) the three slots of `ddp_stats` are exactly
zero (`ddp_stats.zero_()`, line 133, runs on every worker regardless of
whether it is the reporting worker); at every other executed step the
accumulator gains exactly the step's (loss, grad-norm, +1), so its count
slot grows by exactly one per executed step between reductions. -/
theorem c7_stats_reset :
    (∀ (cfg : train_config) (env : Environ) (others : Nat → Stats)
      (rank start_step tokens_seen : Nat) (loop_start : ℚ) (batch_idx : Nat)
      (b : StepInput) (s s' : LoopState),
      batch_idx % cfg.report_interval = 0 →
      stepBody cfg env others rank start_step tokens_seen loop_start batch_idx
        b s = Except.ok s' →
      s'.ddp_stats = Stats.zero) ∧
    (∀ (cfg : train_config) (env : Environ) (others : Nat → Stats)
      (rank start_step tokens_seen : Nat) (loop_start : ℚ) (batch_idx : Nat)
      (b : StepInput) (s s' : LoopState),
      batch_idx % cfg.report_interval ≠ 0 →
      stepBody cfg env others rank start_step tokens_seen loop_start batch_idx
        b s = Except.ok s' →
      s'.ddp_stats = accumulate s.ddp_stats (b.loss, b.gnorm) ∧
      s'.ddp_stats.count = s.ddp_stats.count + 1) := by
  constructor
  · intro cfg env others rank start_step tokens_seen loop_start batch_idx b s s'
      hri hok
    cases hw : env.WORLD_SIZE with
    | none =>
        rw [stepBody_report_no_world cfg env others rank start_step tokens_seen
          loop_start batch_idx b s hri hw] at hok
        cases hok
    | some w =>
        rw [stepBody_report_bound cfg env others rank start_step tokens_seen
          loop_start batch_idx b s w hri hw] at hok
        injection hok with h
        subst h
        rfl
  · intro cfg env others rank start_step tokens_seen loop_start batch_idx b s s'
      hri hok
    by_cases hci : batch_idx % cfg.checkpoint_interval = 0
    · cases hv : s.new_tokens_seen with
      | none =>
          rw [stepBody_ckpt_only_unbound cfg env others rank start_step
            tokens_seen loop_start batch_idx b s hri hci hv] at hok
          cases hok
      | some v =>
          rw [stepBody_ckpt_only_bound cfg env others rank start_step
            tokens_seen loop_start batch_idx b s v hri hci hv] at hok
          injection hok with h
          subst h
          exact ⟨rfl, rfl⟩
    · rw [stepBody_quiet cfg env others rank start_step tokens_seen loop_start
        batch_idx b s hri hci] at hok
      injection hok with h
      subst h
      exact ⟨rfl, rfl⟩

/-- C7 (witness): the theorem applied on a non-reporting worker (rank 3):
at report-boundary step 2 the post-step accumulator is zero; at
non-boundary step 1 it is the pre-step accumulator (5, 7, 2) plus the
sample (2, 3, +1), its count incremented by exactly one. -/
theorem c7_stats_reset_witness :
    (⟨⟨0, 0, 0⟩, some (7/3), some 28, [Event.save 2 28]⟩ : LoopState).ddp_stats
      = Stats.zero ∧
    ((⟨⟨7, 10, 3⟩, some (9/2), some 11, []⟩ : LoopState).ddp_stats =
      accumulate stateBound.ddp_stats (stepSample.loss, stepSample.gnorm) ∧
    (⟨⟨7, 10, 3⟩, some (9/2), some 11, []⟩ : LoopState).ddp_stats.count =
      stateBound.ddp_stats.count + 1) :=
  ⟨c7_stats_reset.1 cfgScenario env1 noOthers 3 0 0 0 2 stepSample stateBound
      ⟨⟨0, 0, 0⟩, some (7/3), some 28, [Event.save 2 28]⟩ (by decide)
      (by norm_num [stepBody, pyInt, avgLoss, avgGnorm, accumulate, Stats.add,
        Stats.zero, cfgScenario, env1, noOthers, stateBound, stepSample, bind,
        Except.bind, pure, Except.pure]),
   c7_stats_reset.2 cfgScenario env1 noOthers 3 0 0 0 1 stepSample stateBound
      ⟨⟨7, 10, 3⟩, some (9/2), some 11, []⟩ (by decide)
      (by norm_num [stepBody, accumulate, cfgScenario, env1, noOthers,
        stateBound, stepSample, bind, Except.bind, pure, Except.pure])⟩

/-- C8: if `WORLD_SIZE` is absent from the process environment, `train`
never returns normally: every run fails with an error (the `KeyError` of
line 88 at the first report boundary, or an earlier/later unbound-variable
error when no boundary is reached) and its event trace is empty — in
particular no step's statistics are ever reported, so the failure surfaces
before any report, and no silent default is applied. -/
theorem c8_missing_world_size :
    ∀ (cfg : train_config) (env : Environ) (others : Nat → Stats) (rank : Nat)
      (train_loader : List StepInput) (start_step tokens_seen : Nat)
      (loop_start : ℚ),
      env.WORLD_SIZE = none →
      ∃ e, train cfg env others rank train_loader start_step tokens_seen
        loop_start = Except.error (e, ([] : List Event)) := by
  intro cfg env others rank loader ss ts ls hw
  by_cases hwb : (cfg.use_wandb && !env.wandbInstalled) = true
  · exact ⟨TrainError.importErrorWandb,
      by simp [train, hwb, throw, throwThe, MonadExceptOf.throw]⟩
  · have hwb2 : (cfg.use_wandb && !env.wandbInstalled) = false := by
      simpa using hwb
    rcases runFrom_no_world cfg env others rank ss ts ls hw loader (ss + 1)
        Stats.zero [] with ⟨stats1, hrec⟩ | ⟨err, hrec⟩
    · exact ⟨TrainError.unboundTrainLoss,
        by simp [train, hwb2, LoopState.init, hrec, bind, Except.bind, throw,
          throwThe, MonadExceptOf.throw]⟩
    · exact ⟨err, by simp [train, hwb2, LoopState.init, hrec, bind, Except.bind]⟩

/-- C8 (witness): the theorem applied to the §8 scenario run with
`WORLD_SIZE` removed from the environment. -/
theorem c8_missing_world_size_witness :
    ∃ e, train cfgScenario envNoWorld noOthers 0 loaderScenario 0 0 0 =
      Except.error (e, ([] : List Event)) :=
  c8_missing_world_size cfgScenario envNoWorld noOthers 0 loaderScenario 0 0 0
    rfl

/-- C9: `new_tokens_seen` is (re)computed only at report boundaries: a
report-boundary step stores the fresh delta `(batch_idx - start_step) *
world_size * batch_size * seq_length`, every other step leaves it
unchanged, and a checkpoint-only step's save call reuses the stored value
(the delta of the most recent earlier report boundary) as `tokens_seen +
new_tokens_seen`; if no report boundary has occurred yet in this `train`
invocation, a run whose executed window contains a checkpoint boundary
and no report boundary raises `UnboundLocalError` on `new_tokens_seen`
with no save issued (empty trace). -/
theorem c9_stale_checkpoint_tokens :
    (∀ (cfg : train_config) (env : Environ) (others : Nat → Stats)
      (rank start_step tokens_seen : Nat) (loop_start : ℚ) (batch_idx : Nat)
      (b : StepInput) (s s' : LoopState) (w : Nat),
      batch_idx % cfg.report_interval = 0 →
      env.WORLD_SIZE = some w →
      stepBody cfg env others rank start_step tokens_seen loop_start batch_idx
        b s = Except.ok s' →
      s'.new_tokens_seen =
        some ((batch_idx - start_step) * w * cfg.batch_size * cfg.seq_length)) ∧
    (∀ (cfg : train_config) (env : Environ) (others : Nat → Stats)
      (rank start_step tokens_seen : Nat) (loop_start : ℚ) (batch_idx : Nat)
      (b : StepInput) (s s' : LoopState),
      batch_idx % cfg.report_interval ≠ 0 →
      stepBody cfg env others rank start_step tokens_seen loop_start batch_idx
        b s = Except.ok s' →
      s'.new_tokens_seen = s.new_tokens_seen) ∧
    (∀ (cfg : train_config) (env : Environ) (others : Nat → Stats)
      (rank start_step tokens_seen : Nat) (loop_start : ℚ) (batch_idx : Nat)
      (b : StepInput) (s : LoopState) (v : Nat),
      batch_idx % cfg.report_interval ≠ 0 →
      batch_idx % cfg.checkpoint_interval = 0 →
      s.new_tokens_seen = some v →
      stepBody cfg env others rank start_step tokens_seen loop_start batch_idx
        b s = Except.ok { s with
          ddp_stats := accumulate s.ddp_stats (b.loss, b.gnorm),
          events := s.events ++ [Event.save batch_idx (tokens_seen + v)] }) ∧
    (∀ (cfg : train_config) (env : Environ) (others : Nat → Stats) (rank : Nat)
      (train_loader : List StepInput) (start_step tokens_seen : Nat)
      (loop_start : ℚ),
      (cfg.use_wandb && !env.wandbInstalled) = false →
      (∀ k, start_step < k → k ≤ cfg.num_steps →
        k ≤ start_step + train_loader.length → k % cfg.report_interval ≠ 0) →
      (∃ k, start_step < k ∧ k ≤ cfg.num_steps ∧
        k ≤ start_step + train_loader.length ∧
        k % cfg.checkpoint_interval = 0) →
      train cfg env others rank train_loader start_step tokens_seen loop_start =
        Except.error (TrainError.unboundNewTokensSeen, ([] : List Event))) := by
  refine ⟨?_, ?_, ?_, ?_⟩
  · intro cfg env others rank start_step tokens_seen loop_start batch_idx b s s'
      w hri hw hok
    rw [stepBody_report_bound cfg env others rank start_step tokens_seen
      loop_start batch_idx b s w hri hw] at hok
    injection hok with h
    subst h
    rfl
  · intro cfg env others rank start_step tokens_seen loop_start batch_idx b s s'
      hri hok
    by_cases hci : batch_idx % cfg.checkpoint_interval = 0
    · cases hv : s.new_tokens_seen with
      | none =>
          rw [stepBody_ckpt_only_unbound cfg env others rank start_step
            tokens_seen loop_start batch_idx b s hri hci hv] at hok
          cases hok
      | some v =>
          rw [stepBody_ckpt_only_bound cfg env others rank start_step
            tokens_seen loop_start batch_idx b s v hri hci hv] at hok
          injection hok with h
          subst h
          exact hv.symm ▸ rfl
    · rw [stepBody_quiet cfg env others rank start_step tokens_seen loop_start
        batch_idx b s hri hci] at hok
      injection hok with h
      subst h
      rfl
  · intro cfg env others rank start_step tokens_seen loop_start batch_idx b s v
      hri hci hv
    exact stepBody_ckpt_only_bound cfg env others rank start_step tokens_seen
      loop_start batch_idx b s v hri hci hv
  · intro cfg env others rank loader ss ts ls hwb hA hE
    obtain ⟨k, hk1, hk2, hk3, hk4⟩ := hE
    have hrun := runFrom_ckpt_before_report cfg env others rank ss ts ls loader
      (ss + 1) Stats.zero none []
      (by
        intro m hm hle
        exact hA (ss + 1 + m) (by omega) hle (by omega))
      ⟨k - (ss + 1), by omega, by omega, by
        have e : ss + 1 + (k - (ss + 1)) = k := by omega
        rw [e]
        exact hk4⟩
    simp [train, hwb, LoopState.init, hrun, bind, Except.bind]

/-- C9 (witness): the theorem applied concretely: a report step stores the
fresh delta 28; a quiet step leaves the stored delta 11 unchanged; a
checkpoint-only step saves `0 + 11` using the stored delta; a run whose
checkpoint boundary (step 2) precedes any report boundary (interval 9,
out of range) raises with an empty trace. -/
theorem c9_stale_checkpoint_tokens_witness :
    ((⟨⟨0, 0, 0⟩, some (7/3), some 28, [Event.save 2 28]⟩ :
        LoopState).new_tokens_seen =
      some ((2 - 0) * 1 * cfgScenario.batch_size * cfgScenario.seq_length)) ∧
    ((⟨⟨7, 10, 3⟩, some (9/2), some 11, []⟩ : LoopState).new_tokens_seen =
      stateBound.new_tokens_seen) ∧
    (stepBody cfgCkptFirst env1 noOthers 0 0 0 0 2 stepSample stateBound =
      Except.ok { stateBound with
        ddp_stats := accumulate stateBound.ddp_stats
          (stepSample.loss, stepSample.gnorm),
        events := stateBound.events ++ [Event.save 2 (0 + 11)] }) ∧
    train cfgNoReport env1 noOthers 0 loaderUnit 0 0 0 =
      Except.error (TrainError.unboundNewTokensSeen, ([] : List Event)) :=
  ⟨c9_stale_checkpoint_tokens.1 cfgScenario env1 noOthers 3 0 0 0 2 stepSample
      stateBound ⟨⟨0, 0, 0⟩, some (7/3), some 28, [Event.save 2 28]⟩ 1
      (by decide) (by rfl)
      (by norm_num [stepBody, pyInt, avgLoss, avgGnorm, accumulate, Stats.add,
        Stats.zero, cfgScenario, env1, noOthers, stateBound, stepSample, bind,
        Except.bind, pure, Except.pure]),
   c9_stale_checkpoint_tokens.2.1 cfgScenario env1 noOthers 3 0 0 0 1
      stepSample stateBound ⟨⟨7, 10, 3⟩, some (9/2), some 11, []⟩ (by decide)
      (by norm_num [stepBody, accumulate, cfgScenario, env1, noOthers,
        stateBound, stepSample, bind, Except.bind, pure, Except.pure]),
   c9_stale_checkpoint_tokens.2.2.1 cfgCkptFirst env1 noOthers 0 0 0 0 2
      stepSample stateBound 11 (by decide) (by decide) (by rfl),
   c9_stale_checkpoint_tokens.2.2.2 cfgNoReport env1 noOthers 0 loaderUnit 0 0
      0 (by rfl)
      (by
        intro k h1 h2 h3
        simp only [cfgNoReport] at h2 ⊢
        omega)
      ⟨2, by decide, by decide, by decide, by decide⟩⟩

/-- C10: `train` returns normally only if some step index in
`(start_step, num_steps]` is a multiple of `report_interval` (the returned
`train_loss` is assigned only at report boundaries); and a run whose
executed window contains no report and no checkpoint boundary completes
its loop and then raises `UnboundLocalError` on the never-assigned
`train_loss` at the final `return` (line 145) instead of returning a
loss. -/
theorem c10_return_requires_report :
    (∀ (cfg : train_config) (env : Environ) (others : Nat → Stats) (rank : Nat)
      (train_loader : List StepInput) (start_step tokens_seen : Nat)
      (loop_start : ℚ) (v : ℚ) (evts : List Event),
      train cfg env others rank train_loader start_step tokens_seen loop_start =
        Except.ok (v, evts) →
      ∃ k, start_step < k ∧ k ≤ cfg.num_steps ∧ k % cfg.report_interval = 0) ∧
    (∀ (cfg : train_config) (env : Environ) (others : Nat → Stats) (rank : Nat)
      (train_loader : List StepInput) (start_step tokens_seen : Nat)
      (loop_start : ℚ),
      (cfg.use_wandb && !env.wandbInstalled) = false →
      (∀ k, start_step < k → k ≤ cfg.num_steps →
        k ≤ start_step + train_loader.length →
        k % cfg.report_interval ≠ 0 ∧ k % cfg.checkpoint_interval ≠ 0) →
      train cfg env others rank train_loader start_step tokens_seen loop_start =
        Except.error (TrainError.unboundTrainLoss, ([] : List Event))) := by
  constructor
  · intro cfg env others rank loader ss ts ls v evts hok
    by_cases hwb : (cfg.use_wandb && !env.wandbInstalled) = true
    · simp [train, hwb, throw, throwThe, MonadExceptOf.throw] at hok
    · have hwb2 : (cfg.use_wandb && !env.wandbInstalled) = false := by
        simpa using hwb
      rw [train] at hok
      rw [hwb2] at hok
      simp only [Bool.false_eq_true, if_false] at hok
      cases hrun : runFrom cfg env others rank ss ts ls (ss + 1) loader
          LoopState.init with
      | error e => rw [hrun] at hok; simp [bind, Except.bind] at hok
      | ok final =>
          rw [hrun] at hok
          simp only [bind, Except.bind] at hok
          rcases runFrom_trainLoss_of_ok cfg env others rank ss ts ls loader
              (ss + 1) LoopState.init final hrun with h | ⟨k, hk1, hk2, hk3⟩
          · rw [show LoopState.init.train_loss = none from rfl] at h
            rw [h] at hok
            simp [throw, throwThe, MonadExceptOf.throw] at hok
          · exact ⟨k, by omega, hk2, hk3⟩
  · intro cfg env others rank loader ss ts ls hwb hA
    obtain ⟨stats1, hrec⟩ := runFrom_no_boundary cfg env others rank ss ts ls
      loader (ss + 1) Stats.zero none none []
      (by
        intro m hm hle
        exact hA (ss + 1 + m) (by omega) hle (by omega))
    simp [train, hwb, LoopState.init, hrec, bind, Except.bind, throw, throwThe,
      MonadExceptOf.throw]

/-- C10 (witness): the theorem applied concretely: a successful two-report
run yields a report boundary in range, and the one-step run with both
intervals out of range raises `UnboundLocalError` on `train_loss` with an
empty trace. -/
theorem c10_return_requires_report_witness :
    (∃ k, 0 < k ∧ k ≤ cfgEveryStep.num_steps ∧
      k % cfgEveryStep.report_interval = 0) ∧
    train cfgNoBoundary env1 noOthers 0 loaderOne 0 0 0 =
      Except.error (TrainError.unboundTrainLoss, ([] : List Event)) :=
  ⟨c10_return_requires_report.1 cfgEveryStep env1 noOthers 0 loaderTimes 0 0 0
      1 [Event.report 1 1 1 100 100 8640000, Event.report 2 1 1 200 66 5760000]
      (by norm_num [train, runFrom, stepBody, pyInt, avgLoss, avgGnorm,
        accumulate, Stats.add, Stats.zero, LoopState.init, cfgEveryStep, env1,
        loaderTimes, noOthers, pure, Except.pure, bind, Except.bind, throw,
        throwThe, MonadExceptOf.throw]),
   c10_return_requires_report.2 cfgNoBoundary env1 noOthers 0 loaderOne 0 0 0
      (by rfl)
      (by
        intro k h1 h2 h3
        simp only [cfgNoBoundary] at h2 ⊢
        omega)⟩

end FmsFsdp
